import Mathlib

/-!
Verification of the `graceful` package of wafer-bw/go-toolbox.

The repository contains several iterations of the package:
* `V1`  — graceful/graceful.go, first segment: `Group []Runner` with
  `Start(ctx, signals...)` built on `errgroup.WithContext` plus a
  `select` over the error context and the signal context, concurrent
  `Stop(ctx, timeout)` via `context.WithTimeoutCause`.
* `VOpt` — graceful/graceful.go, second segment: `Group []Runner` with
  parallel `Start` that waits for all members (`errgroup.Wait`), serial
  `Stop`, and `Run(ctx, opts...)` that races a start error, a watched
  signal and context cancellation, then resolves the result with
  `cmp.Or(startErr, stopErr, runErr)`.
* `V2`  — graceful/v2/graceful.go: a `Group` struct with
  `StartupSequentially`, `ShutdownSignals`, `ShutdownTimeout`,
  `ShutdownSequentially` and `ShutdownReversed` configuration.

Go `error` values are modelled by `Option GoError` (with `none` for
`nil`).  Contexts are modelled by their observable deadline behaviour:
an optional absolute deadline together with the cancellation cause
attached to that deadline.  The asynchronous race inside the
select-based `Start` implementations is modelled by an explicit list of
timed events (task returns, signal delivery, parent cancellation) in
the order in which the scheduler makes them visible to the `select`.
-/

/-- Model of a Go `error` value that can flow through the graceful
package: the standard context errors, the package's own
`ShutdownTimeoutError`, and arbitrary runner-produced errors carrying a
message. A Go `nil` error is `(none : Option GoError)`. -/
inductive GoError where
  | canceled
  | deadlineExceeded
  | shutdownTimeout
  | msg (s : String)
deriving DecidableEq

/-- `Error()` of the modelled error values.  For `shutdownTimeout` this
is the string returned by `ShutdownTimeoutError.Error` in the source:
"graceful shutdown timed out". -/
def GoError.errorString : GoError → String
  | .canceled => "context canceled"
  | .deadlineExceeded => "context deadline exceeded"
  | .shutdownTimeout => "graceful shutdown timed out"
  | .msg s => s

/-- The `Timeout() bool` classification: `ShutdownTimeoutError.Timeout`
returns `true` in the source; `context.DeadlineExceeded` also reports
`true`; plain cancellation and runner errors do not. -/
def GoError.timeout : GoError → Bool
  | .deadlineExceeded => true
  | .shutdownTimeout => true
  | _ => false

/-- First-error-wins aggregation used throughout the package: the first
non-`nil` error of a list of results, or `nil`. -/
def firstSome : List (Option GoError) → Option GoError
  | [] => none
  | none :: rest => firstSome rest
  | some e :: _ => some e

/-- The loop shape shared by every sequential pass in the package:

    for each position in `order`:
      if the entry is nil, continue
      call it; if err != nil && firstErr == nil, firstErr = err

`call i = none` models a nil entry at position `i` (skipped),
`call i = some e` models a present entry whose call returns `e`.
The result pairs the ordered invocation trace with `firstErr`. -/
def seqLoop (call : Nat → Option (Option GoError)) (order : List Nat) :
    List Nat × Option GoError :=
  order.foldl
    (fun acc i =>
      match call i with
      | some e => (acc.1 ++ [i], match acc.2 with | some e0 => some e0 | none => e)
      | none => acc)
    ([], none)

/-- The positions `seqLoop` actually invokes, in order. -/
def seqTrace (call : Nat → Option (Option GoError)) (order : List Nat) : List Nat :=
  order.filter fun i => (call i).isSome

/-- The first non-nil result `seqLoop` encounters. -/
def seqErr (call : Nat → Option (Option GoError)) (order : List Nat) : Option GoError :=
  firstSome ((seqTrace call order).map fun i => (call i).getD none)

/-- A context, modelled by its deadline behaviour: `deadline` is the
absolute time (if any) at which the context's `Done` channel closes,
and `dlCause` is the cause recorded when that deadline fires (`none`
stands for Go's plain `context.DeadlineExceeded`).  Cancellation that
is not deadline-driven is modelled separately, by the events of the
`select` race. -/
structure Ctx where
  deadline : Option Nat
  dlCause : Option GoError
deriving DecidableEq

/-- The background context: no deadline. -/
def Ctx.background : Ctx := { deadline := none, dlCause := none }

/-- `ctx.Err()` observed at absolute time `t`. -/
def Ctx.errAt (c : Ctx) (t : Nat) : Option GoError :=
  match c.deadline with
  | some d => if d ≤ t then some .deadlineExceeded else none
  | none => none

/-- `context.Cause(ctx)` observed at absolute time `t`. -/
def Ctx.causeAt (c : Ctx) (t : Nat) : Option GoError :=
  match c.deadline with
  | some d =>
    if d ≤ t then
      match c.dlCause with
      | some e => some e
      | none => some .deadlineExceeded
    else none
  | none => none

/-- `context.WithDeadlineCause(parent, d, cause)`: if the parent's
deadline is already no later than `d`, the child behaves exactly like
the parent (the new deadline and cause can never fire first);
otherwise the child carries deadline `d` with the given cause. -/
def withDeadlineCause (parent : Ctx) (d : Nat) (cause : Option GoError) : Ctx :=
  match parent.deadline with
  | some pd => if pd ≤ d then parent else { deadline := some d, dlCause := cause }
  | none => { deadline := some d, dlCause := cause }

/-- `context.WithTimeoutCause(parent, timeout, cause)` taken at the
moment `now`: a deadline of `now + timeout`. -/
def withTimeoutCause (parent : Ctx) (now timeout : Nat) (cause : GoError) : Ctx :=
  withDeadlineCause parent (now + timeout) (some cause)

/-- `context.WithTimeout(parent, timeout)` taken at the moment `now`:
the cause is the plain deadline error. -/
def withTimeout (parent : Ctx) (now timeout : Nat) : Ctx :=
  withDeadlineCause parent (now + timeout) none

namespace V2

/-- Model of a present (non-nil) `Runner` of graceful/v2: its `Start`
and `Stop` methods abstracted as functions of the context they receive.
A call that never returns is outside this model; the trace-producing
group operations below describe executions in which every invoked call
returns. -/
structure RunnerM where
  start : Ctx → Option GoError
  stop : Ctx → Option GoError

/-- The v2 `Group` struct.  A `none` entry in `Runners` is a Go `nil`
interface value.  Signals are identified by numbers. -/
structure Group where
  Runners : List (Option RunnerM)
  StartupSequentially : Bool
  ShutdownSignals : List Nat
  ShutdownTimeout : Nat
  ShutdownSequentially : Bool
  ShutdownReversed : Bool

/-- Whether the runner entry at position `i` is present (non-nil). -/
def Group.present (g : Group) (i : Nat) : Bool :=
  (g.Runners.getD i none).isSome

/-- Indices of the present runners, in slice order. -/
def Group.presentIndices (g : Group) : List Nat :=
  (List.range g.Runners.length).filter g.present

/-- The `Stop` result of the runner at position `i` (`nil` for an
absent entry; absent entries are never invoked by the loops below). -/
def Group.stopResult (g : Group) (i : Nat) (ctx : Ctx) : Option GoError :=
  match g.Runners.getD i none with
  | some r => r.stop ctx
  | none => none

/-- The `Start` result of the runner at position `i`. -/
def Group.startResult (g : Group) (i : Nat) (ctx : Ctx) : Option GoError :=
  match g.Runners.getD i none with
  | some r => r.start ctx
  | none => none

/-- `Group.sequentialStart`: iterate the runner slice in order, skip
nil entries, call `Start` on each present runner, remember the first
non-nil error, and keep going to the end of the slice.  Returns the
ordered list of invoked indices together with `firstErr`. -/
def Group.sequentialStart (g : Group) (ctx : Ctx) : List Nat × Option GoError :=
  seqLoop (fun i => (g.Runners.getD i none).map fun r => r.start ctx)
    (List.range g.Runners.length)

/-- The spawn loop of `Group.concurrentStart`: one task per present
runner, nil entries skipped; the list is the spawn order. -/
def Group.concurrentStartSpawns (g : Group) : List Nat :=
  g.presentIndices

/-- The traversal order of `Group.sequentialStop`: the loop walks
`i = 0 .. len-1` and picks `Runners[len-1-i]` when `ShutdownReversed`
is set, `Runners[i]` otherwise. -/
def Group.stopIndexOrder (g : Group) : List Nat :=
  (List.range g.Runners.length).map fun i =>
    if g.ShutdownReversed then g.Runners.length - 1 - i else i

/-- `Group.sequentialStop`: traverse `stopIndexOrder`, skip nil
entries, call `Stop` on each present runner one at a time, remember the
first non-nil error, and continue through the full slice. -/
def Group.sequentialStop (g : Group) (ctx : Ctx) : List Nat × Option GoError :=
  seqLoop (fun i => (g.Runners.getD i none).map fun r => r.stop ctx) g.stopIndexOrder

/-- `Group.concurrentStop`: one stop task per present runner, all
receiving the same context; `errgroup.Wait` returns after every task
finished, with the first error in completion order.  `sched` is the
completion order of the task positions as decided by the scheduler (a
permutation of the slice positions); the invocation trace lists the
present runners in that completion order. -/
def Group.concurrentStop (g : Group) (ctx : Ctx) (sched : List Nat) : List Nat × Option GoError :=
  let order := sched.filter g.present
  (order, firstSome (order.map fun i => g.stopResult i ctx))

/-- The context `Group.Stop` derives and hands to every runner:
`context.WithTimeoutCause(ctx, g.ShutdownTimeout, ShutdownTimeoutError{})`,
applied unconditionally. -/
def Group.stopCtx (g : Group) (ctx : Ctx) (now : Nat) : Ctx :=
  withTimeoutCause ctx now g.ShutdownTimeout .shutdownTimeout

/-- `Group.Stop`: derive the timeout context, then dispatch on
`ShutdownSequentially`. -/
def Group.Stop (g : Group) (ctx : Ctx) (now : Nat) (sched : List Nat) : List Nat × Option GoError :=
  let c := g.stopCtx ctx now
  if g.ShutdownSequentially then g.sequentialStop c else g.concurrentStop c sched

/-- An asynchronous event observed by the `select` at the end of
`Group.Start` (the same structure appears in v1's `Group.Start`):
a spawned start task returning with a result, a watched signal being
delivered, or the caller's context being canceled (carrying the
context's error value).  An execution of `Start` is described by the
list of such events in the order the scheduler produces them. -/
inductive Event where
  | taskRet (i : Nat) (e : Option GoError)
  | sigRecv
  | parentCancel (e : GoError)
deriving DecidableEq

/-- Whether an event unblocks the `select`: a task returning a non-nil
error cancels the errgroup context (`errgroup.WithContext` records the
first error as the cause and cancels); a task returning nil cancels
nothing because `Start` never calls `eg.Wait()`; a watched signal
closes the `signal.NotifyContext` context; parent cancellation closes
both contexts. -/
def Event.isTrigger : Event → Bool
  | .taskRet _ e => e.isSome
  | .sigRecv => true
  | .parentCancel _ => true

/-- The `select` of `Start` over an event sequence: the first
triggering event decides the return value; `none` means no event ever
triggers and `Start` blocks forever.
* first trigger `taskRet i (some e)`: the errgroup context is done
  with cause `e`, so `Start` returns `context.Cause(errCtx) = e`;
* first trigger `sigRecv`: the signal context is done and the parent
  context is not yet canceled (no earlier `parentCancel`), so `Start`
  returns `ctx.Err() = nil`;
* first trigger `parentCancel e`: both contexts are done and either
  branch returns the context's error `e`. -/
def startSelect (evs : List Event) : Option (Option GoError) :=
  match evs.find? Event.isTrigger with
  | none => none
  | some (.taskRet _ e) => some e
  | some .sigRecv => some none
  | some (.parentCancel e) => some (some e)

/-- Well-formedness of an event sequence for a concurrent-mode `Start`
of group `g` under context `ctx`: every task-return event belongs to a
present runner and carries that runner's actual start result. -/
def EventsWF (g : Group) (ctx : Ctx) (evs : List Event) : Prop :=
  ∀ i e, Event.taskRet i e ∈ evs → g.present i = true ∧ e = g.startResult i ctx

/-- `Group.Start`: spawn the start tasks (one per present runner in
concurrent mode; a single task running `sequentialStart` in sequential
mode), then block on the `select`.  The returned value (`none` when
`Start` never returns) is decided by the event sequence. -/
def Group.Start (_g : Group) (_ctx : Ctx) (evs : List Event) : Option (Option GoError) :=
  startSelect evs

/-- `Group.Run` of v2: `defer g.Stop(ctx)` then `return g.Start(ctx)`.
If `Start` never returns, neither does `Run` (`none`).  Otherwise the
deferred `Stop` runs unconditionally and its error is discarded: the
triple holds the stop invocation trace, the discarded stop error, and
the value `Run` actually returns (which is exactly `Start`'s result). -/
def Group.Run (g : Group) (ctx : Ctx) (evs : List Event) (now : Nat) (sched : List Nat) :
    Option (List Nat × Option GoError × Option GoError) :=
  match g.Start ctx evs with
  | none => none
  | some res =>
    let s := g.Stop ctx now sched
    some (s.1, s.2, res)

/-- The v2 `RunnerType` adapter: two optional functions. -/
structure RunnerType where
  StartFunc : Option (Ctx → Option GoError)
  StopFunc : Option (Ctx → Option GoError)

/-- `RunnerType.Start`: a nil `StartFunc` immediately returns nil. -/
def RunnerType.Start (r : RunnerType) (ctx : Ctx) : Option GoError :=
  match r.StartFunc with
  | none => none
  | some f => f ctx

/-- `RunnerType.Stop`: a nil `StopFunc` immediately returns nil. -/
def RunnerType.Stop (r : RunnerType) (ctx : Ctx) : Option GoError :=
  match r.StopFunc with
  | none => none
  | some f => f ctx

end V2

namespace VOpt

/-- Model of a present runner of the options-based iteration
(graceful/graceful.go, second segment).  `start` returns `none` when
the runner's `Start` call never returns (blocks forever), and
`some e` when it returns with error value `e` (`e = none` is a nil
error).  `stop` always returns within its context's lifetime here. -/
structure RunnerM where
  start : Ctx → Option (Option GoError)
  stop : Ctx → Option GoError

/-- The options-based `Group`: a plain slice of runners. -/
abbrev Group := List (Option RunnerM)

/-- Whether the entry at position `i` is present (non-nil). -/
def Group.present (g : Group) (i : Nat) : Bool :=
  (g.getD i none).isSome

/-- Indices of the present runners in slice order. -/
def Group.presentIndices (g : Group) : List Nat :=
  (List.range g.length).filter (Group.present g)

/-- The start behaviour of the runner at position `i`. -/
def Group.startBeh (g : Group) (i : Nat) (ctx : Ctx) : Option (Option GoError) :=
  match g.getD i none with
  | some r => r.start ctx
  | none => some none

/-- The stop result of the runner at position `i`. -/
def Group.stopResult (g : Group) (i : Nat) (ctx : Ctx) : Option GoError :=
  match g.getD i none with
  | some r => r.stop ctx
  | none => none

/-- `Group.Start` of the options-based iteration: spawn one task per
present runner on a plain `errgroup.Group` and `return eg.Wait()`.
`Wait` blocks until every spawned start has returned; hence `Start`
never returns (`none`) as soon as one present runner's start never
returns — even if another runner already returned an error.  When all
return, the result is the first non-nil error in completion order
(`sched` is the completion order chosen by the scheduler). -/
def Group.Start (g : Group) (ctx : Ctx) (sched : List Nat) : Option (Option GoError) :=
  if (Group.presentIndices g).all (fun i => (Group.startBeh g i ctx).isSome) then
    some (firstSome ((sched.filter (Group.present g)).map
      fun i => (Group.startBeh g i ctx).getD none))
  else
    none

/-- `Group.Stop` of the options-based iteration: stop all runners in
series, in slice order, skipping nil entries, continuing past errors,
returning the first non-nil error.  The first component is the ordered
invocation trace. -/
def Group.Stop (g : Group) (ctx : Ctx) : List Nat × Option GoError :=
  seqLoop (fun i => (g.getD i none).map fun r => r.stop ctx) (List.range g.length)

/-- The configuration assembled by `Run` from its options. -/
structure RunConfig where
  stopTimeout : Nat
  signals : List Nat
  stoppingCh : Bool

/-- Which of the three arms of `Run`'s `select` fired first: a watched
signal, the first start error delivered on `startErrCh` (only sent
after `g.Start` returned non-nil), or the caller's context being done
(carrying `ctx.Err()`). -/
inductive RunTrigger where
  | signal
  | startErr (e : GoError)
  | ctxDone (e : GoError)
deriving DecidableEq

/-- The context `Run` hands to `g.Stop`:
`stopCtx, cancel := context.WithTimeout(ctx, cfg.stopTimeout)` followed
by `if cfg.stopTimeout == 0 { stopCtx = ctx }` — a zero timeout imposes
no additional deadline, the parent context is used as-is. -/
def stopCtxOf (ctx : Ctx) (cfg : RunConfig) (now : Nat) : Ctx :=
  if cfg.stopTimeout = 0 then ctx else withTimeout ctx now cfg.stopTimeout

/-- `cmp.Or(a, b, c)` over Go error values: the first non-nil value,
else nil. -/
def cmpOr3 (a b c : Option GoError) : Option GoError :=
  match a with
  | some e => some e
  | none =>
    match b with
    | some e => some e
    | none => c

/-- `Group.Run` of the options-based iteration: start everything in a
goroutine, `select` once over signal / start error / context done
(recording `startErr` only in the second arm and `runErr := ctx.Err()`
only in the third), then unconditionally call `g.Stop` on the derived
stop context and `return cmp.Or(startErr, stopErr, runErr)`.  The first
component is the stop invocation trace. -/
def Group.Run (g : Group) (ctx : Ctx) (cfg : RunConfig) (trigger : RunTrigger) (now : Nat) :
    List Nat × Option GoError :=
  let startErr : Option GoError := match trigger with | .startErr e => some e | _ => none
  let runErr : Option GoError := match trigger with | .ctxDone e => some e | _ => none
  let s := Group.Stop g (stopCtxOf ctx cfg now)
  (s.1, cmpOr3 startErr s.2 runErr)

end VOpt

/-- Modelled from the spec (§4.4, §7): the final return value of `Run`
resolved by priority — "the Start error (if any) takes precedence, then
the Stop error (if any), then the context's own error".  This is the
spec-side definition the code's `Run` implementations are compared
against. -/
def runPrecedenceSpec (startErr stopErr ctxErr : Option GoError) : Option GoError :=
  match startErr with
  | some e => some e
  | none =>
    match stopErr with
    | some e => some e
    | none => ctxErr

/-! ## Helper lemmas -/

theorem seqLoop_foldl (call : Nat → Option (Option GoError)) (order : List Nat)
    (tr : List Nat) (err : Option GoError) :
    order.foldl
      (fun acc i =>
        match call i with
        | some e => (acc.1 ++ [i], match acc.2 with | some e0 => some e0 | none => e)
        | none => acc)
      (tr, err) =
    (tr ++ seqTrace call order,
     match err with
     | some e0 => some e0
     | none => seqErr call order) := by
  induction order generalizing tr err with
  | nil =>
    cases err <;> simp [seqTrace, seqErr, firstSome]
  | cons i rest ih =>
    cases hc : call i with
    | none =>
      simp only [List.foldl_cons, hc]
      rw [ih]
      simp [seqTrace, seqErr, List.filter_cons, hc]
    | some e =>
      simp only [List.foldl_cons, hc]
      rw [ih]
      cases err with
      | some e0 =>
        simp [seqTrace, seqErr, List.filter_cons, hc, firstSome]
      | none =>
        cases e <;>
          simp [seqTrace, seqErr, List.filter_cons, hc, firstSome]

theorem seqLoop_eq (call : Nat → Option (Option GoError)) (order : List Nat) :
    seqLoop call order = (seqTrace call order, seqErr call order) := by
  unfold seqLoop
  rw [seqLoop_foldl]
  simp

theorem seqLoop_eq_of (call : Nat → Option (Option GoError)) (p : Nat → Bool)
    (res : Nat → Option GoError) (order : List Nat)
    (hp : ∀ i, (call i).isSome = p i)
    (hres : ∀ i, p i = true → call i = some (res i)) :
    seqLoop call order = (order.filter p, firstSome ((order.filter p).map res)) := by
  have htr : seqTrace call order = order.filter p := by
    unfold seqTrace
    exact List.filter_congr fun i _ => hp i
  have herr : seqErr call order = firstSome ((order.filter p).map res) := by
    unfold seqErr
    rw [htr]
    congr 1
    apply List.map_congr_left
    intro i hi
    rw [hres i (List.mem_filter.mp hi).2]
    rfl
  rw [seqLoop_eq, htr, herr]

theorem count_filter_nodup (l : List Nat) (p : Nat → Bool) (i : Nat) (hn : l.Nodup) :
    (l.filter p).count i = if i ∈ l ∧ p i = true then 1 else 0 := by
  by_cases h : i ∈ l ∧ p i = true
  · rw [if_pos h]
    exact List.count_eq_one_of_mem (hn.filter p) (List.mem_filter.mpr ⟨h.1, h.2⟩)
  · rw [if_neg h]
    apply List.count_eq_zero_of_not_mem
    intro hm
    exact h ⟨(List.mem_filter.mp hm).1, (List.mem_filter.mp hm).2⟩

theorem count_filter_range_like (l : List Nat) (n : Nat) (p : Nat → Bool) (i : Nat)
    (hn : l.Nodup) (hm : ∀ j, j ∈ l ↔ j < n) (hp : ∀ j, p j = true → j < n) :
    (l.filter p).count i = if p i then 1 else 0 := by
  rw [count_filter_nodup l p i hn]
  by_cases h : p i = true
  · rw [if_pos ⟨(hm i).mpr (hp i h), h⟩, if_pos h]
  · rw [if_neg fun hc => h hc.2, if_neg h]

theorem range_map_sub (n : Nat) :
    (List.range n).map (fun i => n - 1 - i) = (List.range n).reverse := by
  apply List.ext_getElem
  · simp
  · intro i h1 h2
    simp only [List.getElem_map, List.getElem_range, List.getElem_reverse, List.length_range]

namespace V2

theorem present_lt (g : Group) (i : Nat) (h : g.present i = true) : i < g.Runners.length := by
  by_contra hlt
  have hge : g.Runners.length ≤ i := Nat.le_of_not_lt hlt
  unfold Group.present at h
  rw [List.getD_eq_getElem?_getD, List.getElem?_eq_none hge] at h
  simp at h

theorem call_isSome_eq_present (g : Group) (f : RunnerM → Option GoError) (i : Nat) :
    ((g.Runners.getD i none).map f).isSome = g.present i := by
  unfold Group.present
  cases g.Runners.getD i none <;> rfl

theorem stop_call_eq (g : Group) (c : Ctx) (i : Nat) (h : g.present i = true) :
    (g.Runners.getD i none).map (fun r => r.stop c) = some (g.stopResult i c) := by
  unfold Group.present at h
  unfold Group.stopResult
  cases hg : g.Runners.getD i none with
  | none => rw [hg] at h; simp at h
  | some r => rfl

theorem start_call_eq (g : Group) (c : Ctx) (i : Nat) (h : g.present i = true) :
    (g.Runners.getD i none).map (fun r => r.start c) = some (g.startResult i c) := by
  unfold Group.present at h
  unfold Group.startResult
  cases hg : g.Runners.getD i none with
  | none => rw [hg] at h; simp at h
  | some r => rfl

theorem sequentialStop_eq (g : Group) (c : Ctx) :
    g.sequentialStop c =
      (g.stopIndexOrder.filter g.present,
       firstSome ((g.stopIndexOrder.filter g.present).map fun i => g.stopResult i c)) := by
  unfold Group.sequentialStop
  exact seqLoop_eq_of _ g.present (fun i => g.stopResult i c) _
    (fun i => call_isSome_eq_present g _ i)
    (fun i h => stop_call_eq g c i h)

theorem sequentialStart_eq (g : Group) (c : Ctx) :
    g.sequentialStart c =
      ((List.range g.Runners.length).filter g.present,
       firstSome (((List.range g.Runners.length).filter g.present).map
         fun i => g.startResult i c)) := by
  unfold Group.sequentialStart
  exact seqLoop_eq_of _ g.present (fun i => g.startResult i c) _
    (fun i => call_isSome_eq_present g _ i)
    (fun i h => start_call_eq g c i h)

theorem stopIndexOrder_eq (g : Group) :
    g.stopIndexOrder =
      if g.ShutdownReversed then (List.range g.Runners.length).reverse
      else List.range g.Runners.length := by
  unfold Group.stopIndexOrder
  cases hr : g.ShutdownReversed with
  | true => simp [hr, range_map_sub]
  | false => simp [hr]

theorem stopIndexOrder_nodup (g : Group) : g.stopIndexOrder.Nodup := by
  rw [stopIndexOrder_eq]
  cases g.ShutdownReversed <;> simp [List.nodup_range]

theorem mem_stopIndexOrder (g : Group) (i : Nat) :
    i ∈ g.stopIndexOrder ↔ i < g.Runners.length := by
  rw [stopIndexOrder_eq]
  cases g.ShutdownReversed <;> simp [List.mem_range]

end V2

/-! ## Claim theorems -/

/-- Claim C2: a single call to v2 `Group.Stop` invokes each present
runner's stop exactly once — in concurrent and in sequential mode, in
forward and in reverse order (the group's flags are arbitrary here) —
and never invokes an absent (nil) entry.  `Stop` takes no information
about `Start` at all, so the property is independent of whether `Start`
succeeded or was ever called, and the runners' stop results (hence
other members' errors) are arbitrary. `sched` is the completion order
the scheduler picks for the concurrent case. -/
theorem v2_stop_invokes_each_present_exactly_once
    (g : V2.Group) (ctx : Ctx) (now : Nat) (sched : List Nat) (i : Nat)
    (hs : sched.Perm (List.range g.Runners.length)) :
    (V2.Group.Stop g ctx now sched).1.count i = if g.present i then 1 else 0 := by
  unfold V2.Group.Stop
  cases hseq : g.ShutdownSequentially with
  | true =>
    simp only [if_true]
    rw [V2.sequentialStop_eq]
    exact count_filter_range_like _ g.Runners.length _ i (V2.stopIndexOrder_nodup g)
      (V2.mem_stopIndexOrder g) (fun j hj => V2.present_lt g j hj)
  | false =>
    simp only [Bool.false_eq_true, if_false]
    unfold V2.Group.concurrentStop
    exact count_filter_range_like _ g.Runners.length _ i
      (hs.nodup_iff.mpr (List.nodup_range _))
      (fun j => hs.mem_iff.trans (List.mem_range))
      (fun j hj => V2.present_lt g j hj)

/-- Witness for C2: a group with a present, a nil, and another present
runner, sequential+reversed shutdown; each present entry is stopped
exactly once and the nil entry never. -/
theorem v2_stop_invokes_each_present_exactly_once_witness :
    (V2.Group.Stop
      { Runners := [some ⟨fun _ => none, fun _ => none⟩, none,
                    some ⟨fun _ => none, fun _ => some (.msg "sC")⟩],
        StartupSequentially := false, ShutdownSignals := [], ShutdownTimeout := 0,
        ShutdownSequentially := true, ShutdownReversed := true }
      Ctx.background 0 [0, 1, 2]).1.count 2 = 1 :=
  (v2_stop_invokes_each_present_exactly_once
    { Runners := [some ⟨fun _ => none, fun _ => none⟩, none,
                  some ⟨fun _ => none, fun _ => some (.msg "sC")⟩],
      StartupSequentially := false, ShutdownSignals := [], ShutdownTimeout := 0,
      ShutdownSequentially := true, ShutdownReversed := true }
    Ctx.background 0 [0, 1, 2] 2 (by decide)).trans rfl

/-- Claim C6: v2 `Group.sequentialStart` starts the runners one at a
time in exact slice order (the invocation trace is the ordered list of
present positions — an earlier error never prevents a later start from
being attempted, since every present position appears), and the value
returned once the pass completes is the first non-nil start error in
that order. -/
theorem v2_sequential_start_order_and_first_error (g : V2.Group) (ctx : Ctx) :
    (V2.Group.sequentialStart g ctx).1 =
      (List.range g.Runners.length).filter g.present ∧
    (V2.Group.sequentialStart g ctx).2 =
      firstSome (((List.range g.Runners.length).filter g.present).map
        fun i => g.startResult i ctx) := by
  rw [V2.sequentialStart_eq]
  exact ⟨rfl, rfl⟩

/-- Claim C7: with
`ShutdownSequentially` and `ShutdownReversed` set, `Group.Stop`
traverses the runner slice in exact reverse order — the invocation
trace is the reverse of the ordered present positions, so runners
[A, B, C] stop as [C, B, A] — each stop call completing before the next
begins (the pass is a sequential fold), continuing through the full
slice after an error, and the first non-nil stop error in that reverse
order is returned. -/
theorem v2_sequential_reverse_stop_order
    (g : V2.Group) (ctx : Ctx) (now : Nat) (sched : List Nat)
    (hseq : g.ShutdownSequentially = true) (hrev : g.ShutdownReversed = true) :
    (V2.Group.Stop g ctx now sched).1 =
      ((List.range g.Runners.length).filter g.present).reverse ∧
    (V2.Group.Stop g ctx now sched).2 =
      firstSome ((((List.range g.Runners.length).filter g.present).reverse).map
        fun i => g.stopResult i (V2.Group.stopCtx g ctx now)) := by
  unfold V2.Group.Stop
  rw [hseq]
  simp only [if_true]
  rw [V2.sequentialStop_eq, V2.stopIndexOrder_eq, hrev]
  simp only [if_true, List.filter_reverse]
  trivial

/-- Witness for C7: runners [A, B, C] with stop errors on A and C are
stopped in order [C, B, A] (positions [2, 1, 0]) and C's error — the
first encountered in reverse order — is returned. -/
theorem v2_sequential_reverse_stop_order_witness :
    (V2.Group.Stop
      { Runners := [some ⟨fun _ => none, fun _ => some (.msg "A")⟩,
                    some ⟨fun _ => none, fun _ => none⟩,
                    some ⟨fun _ => none, fun _ => some (.msg "C")⟩],
        StartupSequentially := false, ShutdownSignals := [], ShutdownTimeout := 9,
        ShutdownSequentially := true, ShutdownReversed := true }
      Ctx.background 0 [0, 1, 2]).1 = [2, 1, 0] ∧
    (V2.Group.Stop
      { Runners := [some ⟨fun _ => none, fun _ => some (.msg "A")⟩,
                    some ⟨fun _ => none, fun _ => none⟩,
                    some ⟨fun _ => none, fun _ => some (.msg "C")⟩],
        StartupSequentially := false, ShutdownSignals := [], ShutdownTimeout := 9,
        ShutdownSequentially := true, ShutdownReversed := true }
      Ctx.background 0 [0, 1, 2]).2 = some (.msg "C") := by
  have h := v2_sequential_reverse_stop_order
    { Runners := [some ⟨fun _ => none, fun _ => some (.msg "A")⟩,
                  some ⟨fun _ => none, fun _ => none⟩,
                  some ⟨fun _ => none, fun _ => some (.msg "C")⟩],
      StartupSequentially := false, ShutdownSignals := [], ShutdownTimeout := 9,
      ShutdownSequentially := true, ShutdownReversed := true }
    Ctx.background 0 [0, 1, 2] rfl rfl
  exact ⟨h.1.trans rfl, h.2.trans rfl⟩

namespace VOpt

theorem vopt_present_lt (g : Group) (i : Nat) (h : Group.present g i = true) : i < g.length := by
  by_contra hlt
  have hge : g.length ≤ i := Nat.le_of_not_lt hlt
  unfold Group.present at h
  rw [List.getD_eq_getElem?_getD, List.getElem?_eq_none hge] at h
  simp at h

theorem vopt_call_isSome_eq_present (g : Group) (f : RunnerM → Option GoError) (i : Nat) :
    ((g.getD i none).map f).isSome = Group.present g i := by
  unfold Group.present
  cases g.getD i none <;> rfl

theorem vopt_stop_call_eq (g : Group) (c : Ctx) (i : Nat) (h : Group.present g i = true) :
    (g.getD i none).map (fun r => r.stop c) = some (Group.stopResult g i c) := by
  unfold Group.present at h
  unfold Group.stopResult
  cases hg : g.getD i none with
  | none => rw [hg] at h; simp at h
  | some r => rfl

theorem Stop_eq (g : Group) (c : Ctx) :
    Group.Stop g c =
      (Group.presentIndices g,
       firstSome ((Group.presentIndices g).map fun i => Group.stopResult g i c)) := by
  unfold Group.Stop Group.presentIndices
  exact seqLoop_eq_of _ (Group.present g) (fun i => Group.stopResult g i c) _
    (fun i => vopt_call_isSome_eq_present g _ i)
    (fun i h => vopt_stop_call_eq g c i h)

end VOpt

theorem not_mem_filter_of_false (l : List Nat) (p : Nat → Bool) (i : Nat)
    (h : p i = false) : i ∉ l.filter p := by
  intro hm
  have := (List.mem_filter.mp hm).2
  rw [h] at this
  exact Bool.false_ne_true this

theorem cmpOr3_eq_runPrecedenceSpec (a b c : Option GoError) :
    VOpt.cmpOr3 a b c = runPrecedenceSpec a b c := by
  cases a <;> cases b <;> rfl

/-- Claim C9: a v2 `RunnerType` with an absent start function returns
nil from `Start` and one with an absent stop function returns nil from
`Stop`; nil entries of a `Group`'s runner slice are skipped silently by
every phase (they never appear in the invocation trace of the
concurrent start spawn loop, of `sequentialStart`, or of `Stop` in any
mode), and a phase's error aggregates only present runners' results, so
a nil runner never contributes an error. -/
theorem v2_nil_adapters_and_nil_runners_are_noops
    (r : V2.RunnerType) (g : V2.Group) (ctx : Ctx) (now : Nat) (sched : List Nat) (i : Nat) :
    (r.StartFunc = none → V2.RunnerType.Start r ctx = none) ∧
    (r.StopFunc = none → V2.RunnerType.Stop r ctx = none) ∧
    (g.Runners.getD i none = none →
      i ∉ V2.Group.concurrentStartSpawns g ∧
      i ∉ (V2.Group.sequentialStart g ctx).1 ∧
      i ∉ (V2.Group.Stop g ctx now sched).1) ∧
    (V2.Group.sequentialStart g ctx).2 =
      firstSome ((V2.Group.presentIndices g).map fun j => g.startResult j ctx) := by
  refine ⟨?_, ?_, ?_, ?_⟩
  · intro h
    unfold V2.RunnerType.Start
    rw [h]
  · intro h
    unfold V2.RunnerType.Stop
    rw [h]
  · intro h
    have hp : g.present i = false := by
      unfold V2.Group.present
      rw [h]
      rfl
    refine ⟨?_, ?_, ?_⟩
    · unfold V2.Group.concurrentStartSpawns V2.Group.presentIndices
      exact not_mem_filter_of_false _ _ _ hp
    · rw [V2.sequentialStart_eq]
      exact not_mem_filter_of_false _ _ _ hp
    · unfold V2.Group.Stop
      cases g.ShutdownSequentially with
      | true =>
        simp only [if_true]
        rw [V2.sequentialStop_eq]
        exact not_mem_filter_of_false _ _ _ hp
      | false =>
        simp only [Bool.false_eq_true, if_false]
        unfold V2.Group.concurrentStop
        exact not_mem_filter_of_false _ _ _ hp
  · rw [V2.sequentialStart_eq]
    rfl

/-- Witness for C9: an all-absent adapter starts as a no-op, and a nil
entry at position 0 is never invoked by `Stop`. -/
theorem v2_nil_adapters_and_nil_runners_are_noops_witness :
    V2.RunnerType.Start ⟨none, none⟩ Ctx.background = none ∧
    0 ∉ (V2.Group.Stop
      { Runners := [none, some ⟨fun _ => none, fun _ => none⟩],
        StartupSequentially := false, ShutdownSignals := [], ShutdownTimeout := 0,
        ShutdownSequentially := false, ShutdownReversed := false }
      Ctx.background 0 [0, 1]).1 := by
  have h := v2_nil_adapters_and_nil_runners_are_noops ⟨none, none⟩
    { Runners := [none, some ⟨fun _ => none, fun _ => none⟩],
      StartupSequentially := false, ShutdownSignals := [], ShutdownTimeout := 0,
      ShutdownSequentially := false, ShutdownReversed := false }
    Ctx.background 0 [0, 1] 0
  exact ⟨h.1 rfl, (h.2.2.1 rfl).2.2⟩

/-- Claim C5: with a positive configured `ShutdownTimeout`, once the
timeout elapses (any observation time `t` at or past `now + timeout`,
the parent context carrying no earlier deadline), the context v2
`Group.Stop` passes to every runner is canceled with the
shutdown-timeout cause: `context.Cause` yields `ShutdownTimeoutError`,
which is distinguishable from ordinary cancellation — its `Timeout()`
classification is true and its message is non-empty — and `Stop`
dispatches that very context to the runners in both modes. -/
theorem v2_stop_timeout_cause_is_distinguishable
    (g : V2.Group) (ctx : Ctx) (now t : Nat) (sched : List Nat)
    (_hpos : 0 < g.ShutdownTimeout)
    (hpd : ∀ d, ctx.deadline = some d → now + g.ShutdownTimeout < d)
    (ht : now + g.ShutdownTimeout ≤ t) :
    Ctx.causeAt (V2.Group.stopCtx g ctx now) t = some .shutdownTimeout ∧
    Ctx.errAt (V2.Group.stopCtx g ctx now) t = some .deadlineExceeded ∧
    GoError.timeout .shutdownTimeout = true ∧
    GoError.errorString .shutdownTimeout ≠ "" ∧
    V2.Group.Stop g ctx now sched =
      (if g.ShutdownSequentially
       then V2.Group.sequentialStop g (V2.Group.stopCtx g ctx now)
       else V2.Group.concurrentStop g (V2.Group.stopCtx g ctx now) sched) := by
  have hc : V2.Group.stopCtx g ctx now =
      { deadline := some (now + g.ShutdownTimeout), dlCause := some .shutdownTimeout } := by
    unfold V2.Group.stopCtx withTimeoutCause withDeadlineCause
    cases hd : ctx.deadline with
    | none => rfl
    | some pd =>
      have hlt := hpd pd hd
      simp [Nat.not_le_of_lt hlt]
  refine ⟨?_, ?_, rfl, ?_, rfl⟩
  · rw [hc]
    unfold Ctx.causeAt
    simp only [if_pos ht]
  · rw [hc]
    unfold Ctx.errAt
    simp only [if_pos ht]
  · intro hcon
    exact absurd hcon (by decide)

/-- Witness for C5: stop-timeout 25 against the background context,
observed at time 25. -/
theorem v2_stop_timeout_cause_is_distinguishable_witness :
    Ctx.causeAt
      (V2.Group.stopCtx
        { Runners := [], StartupSequentially := false, ShutdownSignals := [],
          ShutdownTimeout := 25, ShutdownSequentially := false, ShutdownReversed := false }
        Ctx.background 0) 25 = some .shutdownTimeout ∧
    GoError.timeout .shutdownTimeout = true ∧
    GoError.errorString .shutdownTimeout ≠ "" := by
  have h := v2_stop_timeout_cause_is_distinguishable
    { Runners := [], StartupSequentially := false, ShutdownSignals := [],
      ShutdownTimeout := 25, ShutdownSequentially := false, ShutdownReversed := false }
    Ctx.background 0 25 [] (by decide) (fun d hd => nomatch hd) (by decide)
  exact ⟨h.1, h.2.2.1, h.2.2.2.1⟩

/-- Counterexample to claim C4 as stated: the claim asserts that with a
zero stop-timeout the context the runners' stop observes "carries
exactly the parent context's deadline (if any)" and the stop phase is
never cut short.  In v2 `Group.Stop` the timeout context is derived
unconditionally, so with `ShutdownTimeout = 0` and a deadline-free
parent the derived context carries deadline `now` (not the parent's
`none`) and is already expired at `now` with the shutdown-timeout
cause: the stop phase is cut short immediately. -/
theorem v2_zero_stop_timeout_counterexample :
    (V2.Group.stopCtx
      { Runners := [], StartupSequentially := false, ShutdownSignals := [],
        ShutdownTimeout := 0, ShutdownSequentially := false, ShutdownReversed := false }
      Ctx.background 5).deadline = some 5 ∧
    Ctx.background.deadline = none ∧
    Ctx.errAt
      (V2.Group.stopCtx
        { Runners := [], StartupSequentially := false, ShutdownSignals := [],
          ShutdownTimeout := 0, ShutdownSequentially := false, ShutdownReversed := false }
        Ctx.background 5) 5 = some .deadlineExceeded ∧
    Ctx.causeAt
      (V2.Group.stopCtx
        { Runners := [], StartupSequentially := false, ShutdownSignals := [],
          ShutdownTimeout := 0, ShutdownSequentially := false, ShutdownReversed := false }
        Ctx.background 5) 5 = some .shutdownTimeout :=
  ⟨rfl, rfl, rfl, rfl⟩

/-- Claim C4, amended: in the options-based `Run` a zero stop-timeout
indeed imposes no additional deadline — the stop context is the parent
context itself — but v2 `Group.Stop` derives its timeout context
unconditionally, so a zero `ShutdownTimeout` there yields an
immediately-expired deadline at `now`: the runners observe a context
that is already canceled with the shutdown-timeout cause instead of one
carrying the parent's deadline. -/
theorem zero_stop_timeout_amended
    (ctx : Ctx) (cfg : VOpt.RunConfig) (now : Nat) (g : V2.Group)
    (hcfg : cfg.stopTimeout = 0) (hg : g.ShutdownTimeout = 0) :
    VOpt.stopCtxOf ctx cfg now = ctx ∧
    (ctx.deadline = none →
      (V2.Group.stopCtx g ctx now).deadline = some now ∧
      Ctx.errAt (V2.Group.stopCtx g ctx now) now = some .deadlineExceeded ∧
      Ctx.causeAt (V2.Group.stopCtx g ctx now) now = some .shutdownTimeout) := by
  constructor
  · unfold VOpt.stopCtxOf
    rw [if_pos hcfg]
  · intro hdl
    have hc : V2.Group.stopCtx g ctx now =
        { deadline := some now, dlCause := some .shutdownTimeout } := by
      unfold V2.Group.stopCtx withTimeoutCause withDeadlineCause
      rw [hg, hdl, Nat.add_zero]
    rw [hc]
    exact ⟨rfl, by unfold Ctx.errAt; simp, by unfold Ctx.causeAt; simp⟩

/-- Witness for the amended C4 at concrete inputs: zero timeout, parent
the background context, taken at time 7. -/
theorem zero_stop_timeout_amended_witness :
    VOpt.stopCtxOf Ctx.background ⟨0, [], false⟩ 7 = Ctx.background ∧
    (V2.Group.stopCtx
      { Runners := [], StartupSequentially := false, ShutdownSignals := [],
        ShutdownTimeout := 0, ShutdownSequentially := false, ShutdownReversed := false }
      Ctx.background 7).deadline = some 7 := by
  have h := zero_stop_timeout_amended Ctx.background ⟨0, [], false⟩ 7
    { Runners := [], StartupSequentially := false, ShutdownSignals := [],
      ShutdownTimeout := 0, ShutdownSequentially := false, ShutdownReversed := false }
    rfl rfl
  exact ⟨h.1, (h.2 rfl).1⟩

/-- Counterexample to claim C1 as stated: the claim asserts that every
`Run` returns the Start error, otherwise the Stop error, otherwise the
context's error.  The v2 `Group.Run` is `defer g.Stop(ctx)` followed by
`return g.Start(ctx)`: the deferred Stop does run, but its error is
discarded.  With one runner whose stop fails and a watched signal as
the only event, Start returns nil, Stop returns "stop failed", yet Run
returns nil — not the Stop error the claimed precedence requires. -/
theorem v2_run_ignores_stop_error_counterexample :
    V2.Group.Run
      { Runners := [some ⟨fun _ => none, fun _ => some (.msg "stop failed")⟩],
        StartupSequentially := false, ShutdownSignals := [7], ShutdownTimeout := 9,
        ShutdownSequentially := false, ShutdownReversed := false }
      Ctx.background [V2.Event.sigRecv] 0 [0] =
      some ([0], some (.msg "stop failed"), none) ∧
    runPrecedenceSpec none (some (.msg "stop failed")) none = some (.msg "stop failed") ∧
    (none : Option GoError) ≠ some (.msg "stop failed") :=
  ⟨rfl, rfl, by decide⟩

/-- Claim C1, amended: the options-based `Run` behaves as claimed — it
races the three triggers, then unconditionally runs the stop pass over
every present runner and returns by the spec's precedence (Start error,
else Stop error, else the context error captured when context-done won
the race).  The v2 `Run` also calls `Stop` unconditionally (via defer),
but returns exactly `Start`'s result: the Stop error is computed and
discarded, never surfaced. -/
theorem run_error_precedence_amended
    (g : VOpt.Group) (ctx : Ctx) (cfg : VOpt.RunConfig) (trigger : VOpt.RunTrigger)
    (now : Nat) (g2 : V2.Group) (evs : List V2.Event) (now2 : Nat) (sched : List Nat)
    (res : Option GoError)
    (h2 : V2.Group.Start g2 ctx evs = some res) :
    (VOpt.Group.Run g ctx cfg trigger now).1 = VOpt.Group.presentIndices g ∧
    (VOpt.Group.Run g ctx cfg trigger now).2 =
      runPrecedenceSpec
        (match trigger with | .startErr e => some e | _ => none)
        (VOpt.Group.Stop g (VOpt.stopCtxOf ctx cfg now)).2
        (match trigger with | .ctxDone e => some e | _ => none) ∧
    V2.Group.Run g2 ctx evs now2 sched =
      some ((V2.Group.Stop g2 ctx now2 sched).1, (V2.Group.Stop g2 ctx now2 sched).2, res) := by
  refine ⟨?_, ?_, ?_⟩
  · unfold VOpt.Group.Run
    rw [VOpt.Stop_eq]
  · unfold VOpt.Group.Run
    exact cmpOr3_eq_runPrecedenceSpec _ _ _
  · unfold V2.Group.Run
    rw [h2]

/-- Witness for the amended C1: a signal-triggered options-based run
with one failing stop returns the stop error, and a signal-triggered v2
run with the same failing stop returns nil while its stop pass still
ran. -/
theorem run_error_precedence_amended_witness :
    (VOpt.Group.Run [some ⟨fun _ => some none, fun _ => some (.msg "sf")⟩]
      Ctx.background ⟨0, [], false⟩ VOpt.RunTrigger.signal 0).2 = some (.msg "sf") ∧
    V2.Group.Run
      { Runners := [some ⟨fun _ => none, fun _ => some (.msg "sf")⟩],
        StartupSequentially := false, ShutdownSignals := [7], ShutdownTimeout := 9,
        ShutdownSequentially := false, ShutdownReversed := false }
      Ctx.background [V2.Event.sigRecv] 0 [0] = some ([0], some (.msg "sf"), none) := by
  have h := run_error_precedence_amended
    [some ⟨fun _ => some none, fun _ => some (.msg "sf")⟩]
    Ctx.background ⟨0, [], false⟩ VOpt.RunTrigger.signal 0
    { Runners := [some ⟨fun _ => none, fun _ => some (.msg "sf")⟩],
      StartupSequentially := false, ShutdownSignals := [7], ShutdownTimeout := 9,
      ShutdownSequentially := false, ShutdownReversed := false }
    [V2.Event.sigRecv] 0 [0] none rfl
  exact ⟨h.2.1.trans rfl, h.2.2.trans rfl⟩

/-- Counterexample to claim C3 as stated: the claim asserts that a
concurrent-mode `Start` returns the first runner start error "without
waiting for the remaining start tasks".  In the options-based iteration
`Group.Start` returns `eg.Wait()` on a plain errgroup, which blocks
until every spawned start has returned.  With runner 0 blocking forever
on its context and runner 1 failing immediately with "boom", that
`Start` never returns (`none`) instead of returning the error. -/
theorem vopt_start_waits_for_all_counterexample :
    VOpt.Group.Start
      [some ⟨fun _ => none, fun _ => none⟩,
       some ⟨fun _ => some (some (.msg "boom")), fun _ => none⟩]
      Ctx.background [0, 1] = none ∧
    (none : Option (Option GoError)) ≠ some (some (.msg "boom")) :=
  ⟨rfl, by decide⟩

/-- Claim C3, amended: in the select-based concurrent `Start` (v1
`Group.Start` and v2 concurrent mode) exactly the first triggering
event decides the return value — a first start error is returned as the
errgroup context's cause (the runner's own result, with no waiting on
the other tasks), a watched signal yields nil, parent cancellation
yields the context's error — and any later trigger is discarded (the
result is a function of the first trigger alone).  In the options-based
iteration, however, `Group.Start` waits on `eg.Wait()`: while any
present runner's start has not returned, `Start` does not return at
all, so its first error is only surfaced after every start task
finishes. -/
theorem start_race_first_trigger_decides
    (g : V2.Group) (ctx : Ctx) (evs evs2 : List V2.Event)
    (hwf : V2.EventsWF g ctx evs) :
    (∀ i e, evs.find? V2.Event.isTrigger = some (.taskRet i e) →
      g.present i = true ∧ e = g.startResult i ctx ∧ e.isSome = true ∧
      V2.Group.Start g ctx evs = some e) ∧
    (evs.find? V2.Event.isTrigger = some .sigRecv →
      V2.Group.Start g ctx evs = some none) ∧
    (∀ e, evs.find? V2.Event.isTrigger = some (.parentCancel e) →
      V2.Group.Start g ctx evs = some (some e)) ∧
    (evs.find? V2.Event.isTrigger = evs2.find? V2.Event.isTrigger →
      V2.Group.Start g ctx evs = V2.Group.Start g ctx evs2) ∧
    (∀ (go : VOpt.Group) (sched : List Nat) (i : Nat),
      VOpt.Group.present go i = true → VOpt.Group.startBeh go i ctx = none →
      VOpt.Group.Start go ctx sched = none) := by
  refine ⟨?_, ?_, ?_, ?_, ?_⟩
  · intro i e hf
    have hmem := List.mem_of_find?_eq_some hf
    have htrig := List.find?_some hf
    have hwfi := hwf i e hmem
    refine ⟨hwfi.1, hwfi.2, htrig, ?_⟩
    unfold V2.Group.Start V2.startSelect
    rw [hf]
  · intro hf
    unfold V2.Group.Start V2.startSelect
    rw [hf]
  · intro e hf
    unfold V2.Group.Start V2.startSelect
    rw [hf]
  · intro hf
    unfold V2.Group.Start V2.startSelect
    rw [hf]
  · intro go sched i hp hdiv
    have hmem : i ∈ VOpt.Group.presentIndices go :=
      List.mem_filter.mpr ⟨List.mem_range.mpr (VOpt.vopt_present_lt go i hp), hp⟩
    have hall : (VOpt.Group.presentIndices go).all
        (fun j => (VOpt.Group.startBeh go j ctx).isSome) = false := by
      rw [List.all_eq_false]
      refine ⟨i, hmem, ?_⟩
      rw [hdiv]
      simp
    unfold VOpt.Group.Start
    rw [hall]
    rfl

/-- Witness for the amended C3: a first-error trigger at runner 1
yields that error; a lone signal trigger yields nil; and the
options-based Start with a diverging runner 0 yields no return. -/
theorem start_race_first_trigger_decides_witness :
    V2.Group.Start
      { Runners := [some ⟨fun _ => none, fun _ => none⟩,
                    some ⟨fun _ => some (.msg "boom"), fun _ => none⟩],
        StartupSequentially := false, ShutdownSignals := [2], ShutdownTimeout := 0,
        ShutdownSequentially := false, ShutdownReversed := false }
      Ctx.background
      [V2.Event.taskRet 0 none, V2.Event.taskRet 1 (some (.msg "boom")), V2.Event.sigRecv] =
      some (some (.msg "boom")) ∧
    VOpt.Group.Start
      [some ⟨fun _ => none, fun _ => none⟩,
       some ⟨fun _ => some (some (.msg "boom")), fun _ => none⟩]
      Ctx.background [1, 0] = none := by
  have h := start_race_first_trigger_decides
    { Runners := [some ⟨fun _ => none, fun _ => none⟩,
                  some ⟨fun _ => some (.msg "boom"), fun _ => none⟩],
      StartupSequentially := false, ShutdownSignals := [2], ShutdownTimeout := 0,
      ShutdownSequentially := false, ShutdownReversed := false }
    Ctx.background
    [V2.Event.taskRet 0 none, V2.Event.taskRet 1 (some (.msg "boom")), V2.Event.sigRecv]
    []
    (by
      intro i e hmem
      rcases List.mem_cons.mp hmem with h0 | hmem
      · cases h0
        exact ⟨rfl, rfl⟩
      rcases List.mem_cons.mp hmem with h1 | hmem
      · cases h1
        exact ⟨rfl, rfl⟩
      rcases List.mem_cons.mp hmem with h2 | hmem
      · cases h2
      · cases hmem)
  exact ⟨(h.1 1 (some (.msg "boom")) rfl).2.2.2,
    h.2.2.2.2 [some ⟨fun _ => none, fun _ => none⟩,
      some ⟨fun _ => some (some (.msg "boom")), fun _ => none⟩] [1, 0] 0 rfl rfl⟩

/-- Counterexample to claim C8 as stated: the claim asserts that a
sequential-mode `Start` returns once the sequential pass completes even
when no runner errored, no signal arrived and the context was never
canceled.  v2 `Start` runs `sequentialStart` inside `eg.Go` on an
`errgroup.WithContext` group but never calls `eg.Wait()`, so the
errgroup context cancels only on a non-nil task result: with one runner
whose start returns nil, the pass completes with a nil result, that
return is not a trigger, and `Start` blocks forever (`none`) instead of
returning. -/
theorem v2_sequential_start_clean_pass_blocks_counterexample :
    (V2.Group.sequentialStart
      { Runners := [some ⟨fun _ => none, fun _ => none⟩],
        StartupSequentially := true, ShutdownSignals := [], ShutdownTimeout := 0,
        ShutdownSequentially := false, ShutdownReversed := false }
      Ctx.background).2 = none ∧
    V2.Group.Start
      { Runners := [some ⟨fun _ => none, fun _ => none⟩],
        StartupSequentially := true, ShutdownSignals := [], ShutdownTimeout := 0,
        ShutdownSequentially := false, ShutdownReversed := false }
      Ctx.background
      [V2.Event.taskRet 0
        (V2.Group.sequentialStart
          { Runners := [some ⟨fun _ => none, fun _ => none⟩],
            StartupSequentially := true, ShutdownSignals := [], ShutdownTimeout := 0,
            ShutdownSequentially := false, ShutdownReversed := false }
          Ctx.background).2] = none :=
  ⟨rfl, rfl⟩

/-- Claim C8, amended: when the single sequential-pass task is the only
event, sequential-mode `Start` returns at pass completion exactly when
the pass produced a non-nil first error (which it then returns); a pass
that completes with all-nil results triggers nothing — the errgroup
context never cancels because `eg.Wait()` is not called — so `Start`
keeps blocking until a watched signal or context cancellation.  In
general, no sequence of non-triggering events makes `Start` return. -/
theorem v2_sequential_start_returns_only_on_pass_error
    (g : V2.Group) (ctx : Ctx) (evs : List V2.Event) (k : Nat)
    (_hseq : g.StartupSequentially = true) :
    V2.Group.Start g ctx [V2.Event.taskRet k (V2.Group.sequentialStart g ctx).2] =
      (match (V2.Group.sequentialStart g ctx).2 with
       | some e => some (some e)
       | none => none) ∧
    ((∀ ev ∈ evs, ev.isTrigger = false) → V2.Group.Start g ctx evs = none) := by
  constructor
  · cases hp : (V2.Group.sequentialStart g ctx).2 with
    | none => simp [V2.Group.Start, V2.startSelect, List.find?, V2.Event.isTrigger, hp]
    | some e => simp [V2.Group.Start, V2.startSelect, List.find?, V2.Event.isTrigger, hp]
  · intro hquiet
    unfold V2.Group.Start V2.startSelect
    rw [List.find?_eq_none.mpr fun x hx => by rw [hquiet x hx]; exact Bool.false_ne_true]

/-- Witness for the amended C8: an erroring sequential pass makes Start
return that error, and a quiet event sequence keeps Start blocked. -/
theorem v2_sequential_start_returns_only_on_pass_error_witness :
    V2.Group.Start
      { Runners := [some ⟨fun _ => some (.msg "x"), fun _ => none⟩],
        StartupSequentially := true, ShutdownSignals := [], ShutdownTimeout := 0,
        ShutdownSequentially := false, ShutdownReversed := false }
      Ctx.background
      [V2.Event.taskRet 0
        (V2.Group.sequentialStart
          { Runners := [some ⟨fun _ => some (.msg "x"), fun _ => none⟩],
            StartupSequentially := true, ShutdownSignals := [], ShutdownTimeout := 0,
            ShutdownSequentially := false, ShutdownReversed := false }
          Ctx.background).2] = some (some (.msg "x")) ∧
    V2.Group.Start
      { Runners := [some ⟨fun _ => some (.msg "x"), fun _ => none⟩],
        StartupSequentially := true, ShutdownSignals := [], ShutdownTimeout := 0,
        ShutdownSequentially := false, ShutdownReversed := false }
      Ctx.background [V2.Event.taskRet 0 none] = none := by
  have h := v2_sequential_start_returns_only_on_pass_error
    { Runners := [some ⟨fun _ => some (.msg "x"), fun _ => none⟩],
      StartupSequentially := true, ShutdownSignals := [], ShutdownTimeout := 0,
      ShutdownSequentially := false, ShutdownReversed := false }
    Ctx.background [V2.Event.taskRet 0 none] 0 rfl
  exact ⟨h.1.trans rfl, h.2 (by intro ev hev; rw [List.mem_singleton.mp hev]; rfl)⟩

/-- Claim C10: for a v2 group with no present runners, well-formed
concurrent-mode event sequences contain no start-task returns, so
`Start` never returns merely because there is no work: with no watched
signal delivered and no context cancellation it blocks forever, and
when it does return, the first trigger was a signal (returning nil) or
a parent cancellation (returning that context error) — no other trigger
can make it return.  (v1 `Group.Start` has the same `select` shape.) -/
theorem v2_empty_group_start_blocks_until_signal_or_cancel
    (g : V2.Group) (ctx : Ctx) (evs : List V2.Event)
    (hnone : ∀ o ∈ g.Runners, o = none)
    (hwf : V2.EventsWF g ctx evs) :
    ((∀ ev ∈ evs, ev ≠ V2.Event.sigRecv ∧ ∀ e, ev ≠ V2.Event.parentCancel e) →
      V2.Group.Start g ctx evs = none) ∧
    (∀ r, V2.Group.Start g ctx evs = some r →
      (r = none ∧ V2.Event.sigRecv ∈ evs) ∨
      (∃ e, r = some e ∧ V2.Event.parentCancel e ∈ evs)) := by
  have hpres : ∀ i, g.present i = false := by
    intro i
    unfold V2.Group.present
    rw [List.getD_eq_getElem?_getD]
    cases hg : g.Runners[i]? with
    | none => rfl
    | some o =>
      rw [hnone o (List.getElem?_mem hg)]
      rfl
  have hnotask : ∀ i e, V2.Event.taskRet i e ∉ evs := by
    intro i e hm
    have := (hwf i e hm).1
    rw [hpres i] at this
    exact Bool.false_ne_true this
  constructor
  · intro hquiet
    unfold V2.Group.Start V2.startSelect
    rw [List.find?_eq_none.mpr ?_]
    intro x hx
    cases x with
    | taskRet i e => exact absurd hx (hnotask i e)
    | sigRecv => exact absurd rfl (hquiet _ hx).1
    | parentCancel e => exact absurd rfl ((hquiet _ hx).2 e)
  · intro r hr
    unfold V2.Group.Start V2.startSelect at hr
    cases hfind : evs.find? V2.Event.isTrigger with
    | none => rw [hfind] at hr; exact absurd hr (by simp)
    | some ev =>
      rw [hfind] at hr
      cases ev with
      | taskRet i e => exact absurd (List.mem_of_find?_eq_some hfind) (hnotask i e)
      | sigRecv =>
        left
        exact ⟨(Option.some.inj hr).symm, List.mem_of_find?_eq_some hfind⟩
      | parentCancel e =>
        right
        exact ⟨e, (Option.some.inj hr).symm, List.mem_of_find?_eq_some hfind⟩

/-- Witness for C10: a group with a single nil entry and no signal or
cancellation events: Start does not return. -/
theorem v2_empty_group_start_blocks_until_signal_or_cancel_witness :
    V2.Group.Start
      { Runners := [none], StartupSequentially := false, ShutdownSignals := [],
        ShutdownTimeout := 0, ShutdownSequentially := false, ShutdownReversed := false }
      Ctx.background [] = none := by
  have h := v2_empty_group_start_blocks_until_signal_or_cancel
    { Runners := [none], StartupSequentially := false, ShutdownSignals := [],
      ShutdownTimeout := 0, ShutdownSequentially := false, ShutdownReversed := false }
    Ctx.background []
    (fun o ho => List.mem_singleton.mp ho)
    (fun i e he => absurd he (List.not_mem_nil _))
  exact h.1 (fun ev hev => absurd hev (List.not_mem_nil _))
